import Mathlib

/-!
Verification development for `pyenv_parser`, a typed accessor layer over a
flat string-keyed environment configuration file.  The Python source is
shallowly embedded: the `Env` pydantic model becomes a Lean structure, its
dictionaries become association lists, every typed getter becomes a pure
function returning `Except PyErr`, and the Python library functions the
getters call (`int`, `str.split`, `base64.b64decode`, ...) are modelled by
executable Lean functions faithful to their documented behaviour on the
inputs this program feeds them.  All string primitives are implemented
structurally over `List Char` so that every definition evaluates inside the
kernel.
-/

set_option maxHeartbeats 1000000

/-! ## Python string primitives -/

/-- Whitespace stripped by Python `str.strip()` (the ASCII part). -/
def isPySpace (c : Char) : Bool :=
  c = ' ' ∨ c = '\t' ∨ c = '\n' ∨ c = '\r' ∨ c = Char.ofNat 11 ∨ c = Char.ofNat 12

/-- Models Python `str.strip()`: drop leading and trailing whitespace. -/
def pyStrip (s : String) : String :=
  String.mk (((s.data.dropWhile isPySpace).reverse.dropWhile isPySpace).reverse)

/-- Lowercases one ASCII letter, as Python `str.lower` does on ASCII text. -/
def pyCharLower (c : Char) : Char :=
  if 'A' ≤ c ∧ c ≤ 'Z' then Char.ofNat (c.toNat + 32) else c

/-- Models Python `str.lower()` on ASCII text. -/
def pyLower (s : String) : String :=
  String.mk (s.data.map pyCharLower)

/-- List prefix test. -/
def startsWithL {α : Type} [DecidableEq α] : List α → List α → Bool
  | [], _ => true
  | _ :: _, [] => false
  | p :: ps, c :: cs => if p = c then startsWithL ps cs else false

/-- Drops a required prefix, or fails. -/
def dropPrefixL {α : Type} [DecidableEq α] : List α → List α → Option (List α)
  | [], l => some l
  | _ :: _, [] => none
  | p :: ps, c :: cs => if p = c then dropPrefixL ps cs else none

/-- Splits a list at the first element satisfying the test; the second
component is the remainder after that element when one exists. -/
def splitAtPred {α : Type} (p : α → Bool) : List α → (List α × Option (List α))
  | [] => ([], none)
  | c :: cs =>
    if p c then ([], some cs)
    else
      let r := splitAtPred p cs
      (c :: r.1, r.2)

/-- Models Python `str.startswith(prefixStr)`. -/
def pyStartsWith (s px : String) : Bool :=
  startsWithL px.data s.data

/-- Fuelled worker for `str.split` with a nonempty separator: splits on every
occurrence, left to right, keeping empty segments.  The fuel is an upper
bound on the input length, so it never runs out on the intended calls. -/
def splitSepFuel (sep : List Char) : Nat → List Char → List (List Char)
  | 0, l => [l]
  | _ + 1, [] => [[]]
  | fuel + 1, c :: cs =>
    if sep ≠ [] ∧ startsWithL sep (c :: cs) then
      [] :: splitSepFuel sep fuel ((c :: cs).drop sep.length)
    else
      match splitSepFuel sep fuel cs with
      | g :: gs => (c :: g) :: gs
      | [] => [[c]]

/-- Models Python `str.split(sep)` for a nonempty separator. -/
def pySplitSep (s sep : String) : List String :=
  (splitSepFuel sep.data s.data.length s.data).map String.mk

/-! ## Data model: the `Env` pydantic model and its error taxonomy -/

/-- Association-list lookup, modelling Python dict membership test and
indexing (`key in d` / `d[key]`). -/
def getk {α : Type} : List (String × α) → String → Option α
  | [], _ => none
  | (k, v) :: rest, key => if k = key then some v else getk rest key

/-- Association-list update, modelling Python dict assignment `d[key] = v`:
replaces the value of an existing key in place, appends a fresh key. -/
def setk {α : Type} : List (String × α) → String → α → List (String × α)
  | [], key, v => [(key, v)]
  | (k, w) :: rest, key, v =>
    if k = key then (k, v) :: rest else (k, w) :: setk rest key v

/-- Payloads of the distinct `EnvParseError` raise sites of the source; the
constructor identifies the message template, the fields its interpolations. -/
inductive EnvError where
  | fileNotFound (file : String)
  | missingKey (key : String)
  | notCallable (key : String)
  | invalidInt (value key : String)
  | invalidFloat (value key : String)
  | invalidBool (value key : String)
  | invalidDate (value key fmt : String)
  | invalidTimedelta (value key : String)
  | invalidUUID (value key : String)
  | invalidJson (value key : String)
  | invalidURL (value key : String)
  | invalidEnum (value key : String)
  | invalidDict (value key : String)
  | invalidBase64 (value key : String)
  | invalidImage (key : String)
  | invalidPort (value key : String)
deriving DecidableEq

/-- Outcome classification of a raised Python exception: the umbrella
`EnvParseError` defined by the source, or an uncaught `ValueError` escaping
from a library call the source does not guard. -/
inductive PyErr where
  | envParse (e : EnvError)
  | valueError (msg : String)
deriving DecidableEq

deriving instance DecidableEq for Except

/-- Predicate for the umbrella error kind (`EnvParseError`). -/
def PyErr.isEnvParse : PyErr → Bool
  | .envParse _ => true
  | .valueError _ => false

/-- The `Env` pydantic model: a raw-value store and an override registry.
Overrides are modelled as pure string transformers (the string-to-string
override contract of the design notes). -/
structure Env where
  env_values : List (String × String)
  custom_parsers : List (String × (String → String))

/-- Models `Env._get`: look the key up or raise the missing-key error. -/
def Env.get (env : Env) (key : String) : Except PyErr String :=
  match getk env.env_values key with
  | none => .error (.envParse (.missingKey key))
  | some v => .ok v

/-- Models `Env._apply_custom_parser`: invoke the registered override on the
value if one exists, else return the value unchanged. -/
def Env.applyOverride (env : Env) (key : String) (value : String) : String :=
  match getk env.custom_parsers key with
  | some f => f value
  | none => value

/-- Models `Env.register_parser`; its callable check cannot fail for an
argument that is a Lean function, so only the registry update remains. -/
def Env.registerOverride (env : Env) (key : String) (f : String → String) : Env :=
  { env with custom_parsers := setk env.custom_parsers key f }

/-- Models the direct post-construction insertion `env.env_values[key] = v`
performed by callers (exercised by the source tests). -/
def Env.insertRaw (env : Env) (key value : String) : Env :=
  { env with env_values := setk env.env_values key value }

/-! ## Numeric parsing (Python `int`) -/

/-- Digit-group tail: digits with single underscores strictly between digits
(the body of a Python numeric literal accepted by `int`/`float`). -/
def vudAux : List Char → Bool
  | [] => true
  | '_' :: [] => false
  | '_' :: c :: cs => c.isDigit && vudAux cs
  | c :: cs => c.isDigit && vudAux cs

/-- Nonempty digit group with optional single underscores between digits. -/
def vud : List Char → Bool
  | [] => false
  | c :: cs => c.isDigit && vudAux cs

/-- Numeric value of a digit group, skipping underscores. -/
def digitsVal (l : List Char) : Nat :=
  l.foldl (fun a c => if c = '_' then a else a * 10 + (c.toNat - 48)) 0

/-- Models the Python builtin `int` applied to a string: optional surrounding
whitespace, an optional sign, then a nonempty run of decimal digits with
single underscores allowed between digits. -/
def pyInt? (s : String) : Option Int :=
  match (pyStrip s).data with
  | '+' :: rest => if vud rest then some (digitsVal rest : Int) else none
  | '-' :: rest => if vud rest then some (-(digitsVal rest : Int)) else none
  | rest => if vud rest then some (digitsVal rest : Int) else none

/-! ## Typed getters -/

/-- Conversion step of `Env.int`: `conint()(int(value))`, where `conint()`
with no arguments adds no constraint, guarded by the ValueError handler. -/
def intConv (key value : String) : Except PyErr Int :=
  match pyInt? value with
  | some n => .ok n
  | none => .error (.envParse (.invalidInt value key))

/-- Models `Env.int`. -/
def Env.int (env : Env) (key : String) : Except PyErr Int := do
  let value ← env.get key
  let value := env.applyOverride key value
  intConv key value

/-- Models `Env.str`: resolve, apply the override, no conversion. -/
def Env.str (env : Env) (key : String) : Except PyErr String := do
  let value ← env.get key
  pure (env.applyOverride key value)

/-- Conversion step of `Env.bool`: membership in the two literal lists. -/
def boolConv (key value : String) : Except PyErr Bool :=
  if value = "true" ∨ value = "1" ∨ value = "yes" then .ok true
  else if value = "false" ∨ value = "0" ∨ value = "no" then .ok false
  else .error (.envParse (.invalidBool value key))

/-- Models `Env.bool`; the source lowercases the raw value BEFORE the
override runs (`value = self._get(key).lower()`). -/
def Env.bool (env : Env) (key : String) : Except PyErr Bool := do
  let value ← env.get key
  let value := env.applyOverride key (pyLower value)
  boolConv key value

/-- Models Python `str.split(sep)`: raises ValueError on an empty separator,
otherwise splits on every occurrence left to right. -/
def pySplit (s sep : String) : Except PyErr (List String) :=
  if sep = "" then .error (.valueError "empty separator")
  else .ok (pySplitSep s sep)

/-- Conversion step of `Env.list`: split on the delimiter, strip each item. -/
def listConv (delimiter value : String) : Except PyErr (List String) := do
  let parts ← pySplit value delimiter
  pure (parts.map pyStrip)

/-- Models `Env.list`. -/
def Env.list (env : Env) (key : String) (delimiter : String := ",") :
    Except PyErr (List String) := do
  let value ← env.get key
  let value := env.applyOverride key value
  listConv delimiter value

/-- Models `Env.port`: resolve and apply the override (the result feeding only
the error message), delegate to `Env.int`, then range-check. -/
def Env.port (env : Env) (key : String) : Except PyErr Int := do
  let value ← env.get key
  let value := env.applyOverride key value
  let p ← env.int key
  if 1 ≤ p ∧ p ≤ 65535 then pure p
  else .error (.envParse (.invalidPort value key))

/-! ## Construction: loading the environment file -/

/-- Splits a character list at the first equals sign, modelling `str.split`
with maxsplit 1; `none` when the character is absent. -/
def splitFirstEq : List Char → Option (List Char × List Char)
  | [] => none
  | c :: rest =>
    if c = '=' then some ([], rest)
    else
      match splitFirstEq rest with
      | some (a, b) => some (c :: a, b)
      | none => none

/-- Models the line loop of `Env._load_env_file` over the lines of the file
(each line given without its trailing newline, which `strip` removes anyway):
process a line when its strip is nonempty and the raw line does not start
with the hash character; unpacking a split with no equals sign raises an
uncaught ValueError. -/
def loadLines : List (String × String) → List String →
    Except PyErr (List (String × String))
  | acc, [] => .ok acc
  | acc, line :: rest =>
    if pyStrip line ≠ "" ∧ ¬ pyStartsWith line "#" then
      match splitFirstEq (pyStrip line).data with
      | some (k, v) => loadLines (setk acc (String.mk k) (String.mk v)) rest
      | none =>
        .error (.valueError "not enough values to unpack (expected 2, got 1)")
    else loadLines acc rest

/-- Models constructing `Env(env_file=...)` on an existing file with the given
lines: the validator fills `env_values`, the override registry starts empty. -/
def Env.construct (lines : List String) : Except PyErr Env := do
  let vals ← loadLines [] lines
  pure ⟨vals, []⟩

/-! ## Float parsing (Python `float`) and the float getter -/

/-- Positive infinity. -/
def pyInf : Float := 1.0 / 0.0

/-- Not-a-number. -/
def pyNanF : Float := 0.0 / 0.0

/-- Mantissa of a Python float literal: digit groups around an optional dot,
at least one digit overall; yields the digit value and the count of
fractional digits. -/
def parseMantissa (l : List Char) : Option (Nat × Nat) :=
  match splitAtPred (fun c => c = '.') l with
  | (ip, none) => if vud ip then some (digitsVal ip, 0) else none
  | (ip, some fp) =>
    if fp.any (fun c => c = '.') then none
    else if (ip.isEmpty || vud ip) && (fp.isEmpty || vud fp) &&
        !(ip.isEmpty && fp.isEmpty) then
      some (digitsVal (ip ++ fp), (fp.filter Char.isDigit).length)
    else none

/-- Exponent of a Python float literal: optional sign then a digit group. -/
def parseExp (l : List Char) : Option Int :=
  match l with
  | '+' :: rest => if vud rest then some (digitsVal rest : Int) else none
  | '-' :: rest => if vud rest then some (-(digitsVal rest : Int)) else none
  | rest => if vud rest then some (digitsVal rest : Int) else none

/-- Float value of mantissa digits scaled by a base-ten exponent. -/
def scientific (m : Nat) (e : Int) : Float :=
  if e < 0 then Float.ofScientific m true (-e).toNat
  else Float.ofScientific m false e.toNat

/-- Models the Python builtin `float` applied to a string: optional
whitespace and sign; inf, infinity and nan case-insensitively; or decimal
digits with optional fraction and exponent, underscores between digits. -/
def pyFloat? (s : String) : Option Float :=
  let core : List Char → Bool → Option Float := fun l neg =>
    let low := l.map pyCharLower
    if low = "inf".data ∨ low = "infinity".data then
      some (if neg then -pyInf else pyInf)
    else if low = "nan".data then some pyNanF
    else
      match splitAtPred (fun c => c = 'e' ∨ c = 'E') l with
      | (mant, none) =>
        match parseMantissa mant with
        | some (m, fl) =>
          some ((if neg then -1.0 else 1.0) * scientific m (-(fl : Int)))
        | none => none
      | (mant, some ex) =>
        match parseMantissa mant, parseExp ex with
        | some (m, fl), some e =>
          some ((if neg then -1.0 else 1.0) * scientific m (e - (fl : Int)))
        | _, _ => none
  match (pyStrip s).data with
  | '+' :: rest => core rest false
  | '-' :: rest => core rest true
  | rest => core rest false

/-- Conversion step of `Env.float`. -/
def floatConv (key value : String) : Except PyErr Float :=
  match pyFloat? value with
  | some f => .ok f
  | none => .error (.envParse (.invalidFloat value key))

/-- Models `Env.float`. -/
def Env.float (env : Env) (key : String) : Except PyErr Float := do
  let value ← env.get key
  let value := env.applyOverride key value
  floatConv key value

/-! ## Date parsing (strptime) and the date getter -/

/-- Calendar date. -/
structure PyDate where
  year : Nat
  month : Nat
  day : Nat
deriving DecidableEq

/-- Fields collected while matching a strptime format. -/
structure DMY where
  day : Option Nat
  month : Option Nat
  year : Option Nat

/-- Numeric alternatives a strptime day or month directive can match at the
head of the input, most preferred first: a two-digit value up to the bound
(leading zero allowed, zero excluded), then a single nonzero digit. -/
def numAlts (hi : Nat) (input : List Char) : List (Nat × List Char) :=
  (match input with
   | a :: b :: rest =>
     let v := (a.toNat - 48) * 10 + (b.toNat - 48)
     if a.isDigit ∧ b.isDigit ∧ 1 ≤ v ∧ v ≤ hi then [(v, rest)] else []
   | _ => []) ++
  (match input with
   | a :: rest =>
     let v := a.toNat - 48
     if a.isDigit ∧ 1 ≤ v then [(v, rest)] else []
   | [] => [])

/-- Matches input against a strptime format supporting the day, month,
four-digit-year and literal-percent directives plus literal characters, with
the backtracking of the compiled regex alternation (two digits preferred,
one-digit fallback); any other directive is outside the modelled subset. -/
def strpMatch : List Char → List Char → DMY → Option DMY
  | [], [], acc => some acc
  | [], _ :: _, _ => none
  | '%' :: 'd' :: fr, input, acc =>
    (match numAlts 31 input with
     | [] => none
     | [(v, rest)] => strpMatch fr rest { acc with day := some v }
     | (v2, r2) :: (v1, r1) :: _ =>
       match strpMatch fr r2 { acc with day := some v2 } with
       | some r => some r
       | none => strpMatch fr r1 { acc with day := some v1 })
  | '%' :: 'm' :: fr, input, acc =>
    (match numAlts 12 input with
     | [] => none
     | [(v, rest)] => strpMatch fr rest { acc with month := some v }
     | (v2, r2) :: (v1, r1) :: _ =>
       match strpMatch fr r2 { acc with month := some v2 } with
       | some r => some r
       | none => strpMatch fr r1 { acc with month := some v1 })
  | '%' :: 'Y' :: fr, input, acc =>
    (match input with
     | a :: b :: c :: d :: rest =>
       if a.isDigit ∧ b.isDigit ∧ c.isDigit ∧ d.isDigit then
         strpMatch fr rest { acc with year := some (digitsVal [a, b, c, d]) }
       else none
     | _ => none)
  | '%' :: '%' :: fr, input, acc =>
    (match input with
     | c :: rest => if c = '%' then strpMatch fr rest acc else none
     | [] => none)
  | '%' :: _ :: _, _, _ => none
  | ['%'], _, _ => none
  | c :: fr, input, acc =>
    (match input with
     | i :: rest => if c = i then strpMatch fr rest acc else none
     | [] => none)

/-- Proleptic Gregorian leap-year rule. -/
def isLeap (y : Nat) : Bool := (y % 4 = 0 ∧ y % 100 ≠ 0) ∨ y % 400 = 0

/-- Day count of a month. -/
def daysInMonth (y m : Nat) : Nat :=
  if m = 2 then (if isLeap y then 29 else 28)
  else if m = 4 ∨ m = 6 ∨ m = 9 ∨ m = 11 then 30 else 31

/-- Conversion step of `Env.date`: match the format (absent fields default to
1900-01-01 as in strptime), then construct the date, whose constructor
rejects out-of-range years and days; both failure modes raise ValueError,
which the source maps to one error. -/
def dateConv (key fmt value : String) : Except PyErr PyDate :=
  match strpMatch fmt.data value.data ⟨none, none, none⟩ with
  | none => .error (.envParse (.invalidDate value key fmt))
  | some dmy =>
    let y := dmy.year.getD 1900
    let m := dmy.month.getD 1
    let d := dmy.day.getD 1
    if 1 ≤ y ∧ y ≤ 9999 ∧ d ≤ daysInMonth y m then .ok ⟨y, m, d⟩
    else .error (.envParse (.invalidDate value key fmt))

/-- Models `Env.date`. -/
def Env.date (env : Env) (key : String) (date_format : String := "%d-%m-%Y") :
    Except PyErr PyDate := do
  let value ← env.get key
  let value := env.applyOverride key value
  dateConv key date_format value

/-! ## Remaining scalar getters: timedelta, uuid -/

/-- Conversion step of `Env.timedelta`: int seconds, materialized as the
second count of the time span. -/
def tdConv (key value : String) : Except PyErr Int :=
  match pyInt? value with
  | some n => .ok n
  | none => .error (.envParse (.invalidTimedelta value key))

/-- Models `Env.timedelta`; the span is represented by its seconds. -/
def Env.timedelta (env : Env) (key : String) : Except PyErr Int := do
  let value ← env.get key
  let value := env.applyOverride key value
  tdConv key value

/-- Fuelled removal of every occurrence of a pattern, modelling
`str.replace` with an empty replacement. -/
def removeAllFuel (pat : List Char) : Nat → List Char → List Char
  | 0, l => l
  | _ + 1, [] => []
  | fuel + 1, c :: cs =>
    if pat ≠ [] ∧ startsWithL pat (c :: cs) then
      removeAllFuel pat fuel ((c :: cs).drop pat.length)
    else c :: removeAllFuel pat fuel cs

/-- Models `str.replace(pat, empty)`. -/
def pyRemoveAll (s pat : String) : String :=
  String.mk (removeAllFuel pat.data s.data.length s.data)

/-- Curly brace test (written by code point to keep braces out of literals). -/
def isBrace (c : Char) : Bool := c.toNat = 123 ∨ c.toNat = 125

/-- Models `str.strip` with the brace character set: any number of braces
removed from both ends. -/
def stripBraces (s : String) : String :=
  String.mk (((s.data.dropWhile isBrace).reverse.dropWhile isBrace).reverse)

/-- Hexadecimal digit value. -/
def hexVal? (c : Char) : Option Nat :=
  if '0' ≤ c ∧ c ≤ '9' then some (c.toNat - 48)
  else if 'a' ≤ c ∧ c ≤ 'f' then some (c.toNat - 97 + 10)
  else if 'A' ≤ c ∧ c ≤ 'F' then some (c.toNat - 65 + 10)
  else none

/-- Models the UUID string constructor: remove the urn and uuid prefixes
wherever they occur, strip braces from the ends, drop every dash, then
require exactly 32 hexadecimal digits; the value is the 128-bit integer. -/
def pyUUID? (s : String) : Option Nat :=
  let h := pyRemoveAll (pyRemoveAll s "urn:") "uuid:"
  let h := pyRemoveAll (stripBraces h) "-"
  if h.data.length = 32 ∧ h.data.all (fun c => (hexVal? c).isSome) then
    some (h.data.foldl (fun a c => a * 16 + (hexVal? c).getD 0) 0)
  else none

/-- Conversion step of `Env.uuid`. -/
def uuidConv (key value : String) : Except PyErr Nat :=
  match pyUUID? value with
  | some n => .ok n
  | none => .error (.envParse (.invalidUUID value key))

/-- Models `Env.uuid`; the UUID is represented by its 128-bit integer. -/
def Env.uuid (env : Env) (key : String) : Except PyErr Nat := do
  let value ← env.get key
  let value := env.applyOverride key value
  uuidConv key value

/-! ## JSON parsing and the json getter -/

/-- Decoded JSON value; numbers keep their lexeme (the source hands the
decoded document to the caller without further inspection). -/
inductive JsonVal where
  | jnull
  | jbool (b : Bool)
  | jnum (lexeme : String)
  | jstr (s : String)
  | jarr (items : List JsonVal)
  | jobj (members : List (String × JsonVal))

/-- JSON structural whitespace. -/
def jsonWs : List Char → List Char :=
  List.dropWhile (fun c => c = ' ' ∨ c = '\t' ∨ c = '\n' ∨ c = '\r')

/-- Lexes a JSON string body after its opening quote: plain characters above
the control range, the named escapes, and four-digit unicode escapes. -/
def lexJsonString : Nat → List Char → Option (List Char × List Char)
  | 0, _ => none
  | fuel + 1, l =>
    match l with
    | [] => none
    | '"' :: rest => some ([], rest)
    | '\\' :: e :: rest =>
      let simple : Option Char :=
        if e = '"' then some '"'
        else if e = '\\' then some '\\'
        else if e = '/' then some '/'
        else if e = 'b' then some (Char.ofNat 8)
        else if e = 'f' then some (Char.ofNat 12)
        else if e = 'n' then some '\n'
        else if e = 'r' then some '\r'
        else if e = 't' then some '\t'
        else none
      (match simple with
       | some c =>
         (match lexJsonString fuel rest with
          | some (s, r) => some (c :: s, r)
          | none => none)
       | none =>
         if e = 'u' then
           match rest with
           | a :: b :: c :: d :: rest2 =>
             (match hexVal? a, hexVal? b, hexVal? c, hexVal? d with
              | some x, some y, some z, some w =>
                (match lexJsonString fuel rest2 with
                 | some (s, r) =>
                   some (Char.ofNat (((x * 16 + y) * 16 + z) * 16 + w) :: s, r)
                 | none => none)
              | _, _, _, _ => none)
           | _ => none
         else none)
    | c :: rest =>
      if c.toNat < 32 then none
      else
        match lexJsonString fuel rest with
        | some (s, r) => some (c :: s, r)
        | none => none

/-- Lexes a JSON number: optional minus, an integer part that is a lone zero
or starts with a nonzero digit, optional fraction and exponent groups that
are only taken when complete; yields the lexeme and the remainder. -/
def lexJsonNumber (l : List Char) : Option (List Char × List Char) :=
  let (sign, l1) := match l with | '-' :: r => (['-'], r) | _ => (([] : List Char), l)
  let (ip, r1) :=
    match l1 with
    | '0' :: r => (['0'], r)
    | _ => (l1.takeWhile Char.isDigit, l1.dropWhile Char.isDigit)
  if ip.isEmpty then none
  else
    let (fp, r2) :=
      match r1 with
      | '.' :: r =>
        let ds := r.takeWhile Char.isDigit
        if ds.isEmpty then (([] : List Char), r1)
        else ('.' :: ds, r.dropWhile Char.isDigit)
      | _ => (([] : List Char), r1)
    let (ep, r3) :=
      match r2 with
      | e :: rest =>
        if e = 'e' ∨ e = 'E' then
          match rest with
          | s :: rest2 =>
            if s = '+' ∨ s = '-' then
              let ds := rest2.takeWhile Char.isDigit
              if ds.isEmpty then (([] : List Char), r2)
              else (e :: s :: ds, rest2.dropWhile Char.isDigit)
            else
              let ds := rest.takeWhile Char.isDigit
              if ds.isEmpty then (([] : List Char), r2)
              else (e :: ds, rest.dropWhile Char.isDigit)
          | [] => (([] : List Char), r2)
        else (([] : List Char), r2)
      | [] => (([] : List Char), r2)
    some (sign ++ ip ++ fp ++ ep, r3)

/-- Parsing mode: a value, or the tail of an array or object already opened,
carrying the members parsed so far. -/
inductive JMode where
  | value
  | arrTail (acc : List JsonVal)
  | objTail (acc : List (String × JsonVal))

/-- Fuelled JSON parser following the Python json scanner: literals (with the
NaN and Infinity extensions), strings, numbers, arrays and objects; object
members are inserted with dict semantics, so a repeated key keeps its first
position and last value. -/
def jstep : Nat → JMode → List Char → Option (JsonVal × List Char)
  | 0, _, _ => none
  | fuel + 1, .value, input =>
    let l := jsonWs input
    if let some r := dropPrefixL "null".data l then some (.jnull, r)
    else if let some r := dropPrefixL "true".data l then some (.jbool true, r)
    else if let some r := dropPrefixL "false".data l then some (.jbool false, r)
    else if let some r := dropPrefixL "NaN".data l then some (.jnum "NaN", r)
    else if let some r := dropPrefixL "Infinity".data l then
      some (.jnum "Infinity", r)
    else if let some r := dropPrefixL "-Infinity".data l then
      some (.jnum "-Infinity", r)
    else
      match l with
      | '"' :: r =>
        (match lexJsonString (r.length + 1) r with
         | some (s, r2) => some (.jstr (String.mk s), r2)
         | none => none)
      | '[' :: r =>
        (match jsonWs r with
         | ']' :: r3 => some (.jarr [], r3)
         | _ => jstep fuel (.arrTail []) r)
      | c :: r =>
        if c.toNat = 123 then
          match jsonWs r with
          | c2 :: r3 =>
            if c2.toNat = 125 then some (.jobj [], r3)
            else jstep fuel (.objTail []) r
          | [] => none
        else
          (match lexJsonNumber l with
           | some (lex, r2) => some (.jnum (String.mk lex), r2)
           | none => none)
      | [] => none
  | fuel + 1, .arrTail acc, input =>
    match jstep fuel .value input with
    | some (v, r) =>
      (match jsonWs r with
       | ',' :: r2 => jstep fuel (.arrTail (acc ++ [v])) r2
       | ']' :: r2 => some (.jarr (acc ++ [v]), r2)
       | _ => none)
    | none => none
  | fuel + 1, .objTail acc, input =>
    match jsonWs input with
    | '"' :: r =>
      (match lexJsonString (r.length + 1) r with
       | some (k, r2) =>
         (match jsonWs r2 with
          | ':' :: r4 =>
            (match jstep fuel .value r4 with
             | some (v, r5) =>
               (match jsonWs r5 with
                | ',' :: r7 => jstep fuel (.objTail (setk acc (String.mk k) v)) r7
                | c :: r7 =>
                  if c.toNat = 125 then
                    some (.jobj (setk acc (String.mk k) v), r7)
                  else none
                | [] => none)
             | none => none)
          | _ => none)
       | none => none)
    | _ => none

/-- Models `json.loads`: parse one document, allow trailing whitespace only. -/
def pyJsonLoads? (s : String) : Option JsonVal :=
  match jstep (2 * s.data.length + 8) .value s.data with
  | some (v, rest) => if jsonWs rest = [] then some v else none
  | none => none

/-- Conversion step of `Env.json`. -/
def jsonConv (key value : String) : Except PyErr JsonVal :=
  match pyJsonLoads? value with
  | some j => .ok j
  | none => .error (.envParse (.invalidJson value key))

/-- Models `Env.json`. -/
def Env.json (env : Env) (key : String) : Except PyErr JsonVal := do
  let value ← env.get key
  let value := env.applyOverride key value
  jsonConv key value

/-! ## Path, URL, enum, dict getters -/

/-- Abstract filesystem path: the wrapped text (no existence check, as in
pathlib construction). -/
structure PyPath where
  text : String
deriving DecidableEq

/-- Models `Env.path`; the conversion never fails. -/
def Env.path (env : Env) (key : String) : Except PyErr PyPath := do
  let value ← env.get key
  let value := env.applyOverride key value
  pure ⟨value⟩

/-- Components of a parsed URL the source inspects, plus the remainder. -/
structure UrlParts where
  scheme : String
  netloc : String
  rest : String
deriving DecidableEq

/-- Characters allowed after the first one in a URL scheme. -/
def isSchemeChar (c : Char) : Bool := c.isAlphanum ∨ c = '+' ∨ c = '-' ∨ c = '.'

/-- Models urlparse as far as the components the source inspects: a scheme is
a leading alphabetic-then-scheme-characters run before a colon (lowercased),
a network location follows two slashes and extends to the next slash,
question mark or hash. -/
def pyUrlparse (s : String) : UrlParts :=
  let l := s.data
  let (schm, afterScheme) :=
    match splitAtPred (fun c => c = ':') l with
    | (pre, some r) =>
      (match pre with
       | c0 :: cs =>
         if c0.isAlpha ∧ cs.all isSchemeChar then (pre.map pyCharLower, r)
         else (([] : List Char), l)
       | [] => (([] : List Char), l))
    | (_, none) => (([] : List Char), l)
  if startsWithL "//".data afterScheme then
    let afterSlashes := afterScheme.drop 2
    let netloc :=
      afterSlashes.takeWhile (fun c => ¬ (c = '/' ∨ c = '?' ∨ c.toNat = 35))
    ⟨String.mk schm, String.mk netloc,
      String.mk (afterSlashes.drop netloc.length)⟩
  else ⟨String.mk schm, "", String.mk afterScheme⟩

/-- Conversion step of `Env.url`: parse, then require scheme and netloc. -/
def urlConv (key value : String) : Except PyErr UrlParts :=
  let p := pyUrlparse value
  if p.scheme ≠ "" ∧ p.netloc ≠ "" then .ok p
  else .error (.envParse (.invalidURL value key))

/-- Models `Env.url`. -/
def Env.url (env : Env) (key : String) : Except PyErr UrlParts := do
  let value ← env.get key
  let value := env.applyOverride key value
  urlConv key value

/-- Conversion step of `Env.enum`: member lookup by name in the caller's enum
type, modelled as its name-to-member table (members represented by Nat). -/
def enumConv (key : String) (table : List (String × Nat)) (value : String) :
    Except PyErr Nat :=
  match getk table value with
  | some n => .ok n
  | none => .error (.envParse (.invalidEnum value key))

/-- Models `Env.enum`. -/
def Env.enum (env : Env) (key : String) (table : List (String × Nat)) :
    Except PyErr Nat := do
  let value ← env.get key
  let value := env.applyOverride key value
  enumConv key table value

/-- Conversion step of `Env.dict`: split on commas, split each item on every
colon, require exactly two segments per item, insert the pairs in order with
dict semantics. -/
def dictConv (key value : String) : Except PyErr (List (String × String)) :=
  let pairs := (pySplitSep value ",").map (fun item => pySplitSep item ":")
  if pairs.all (fun p => p.length = 2) then
    .ok (pairs.foldl
      (fun d p => match p with | [a, b] => setk d a b | _ => d) [])
  else .error (.envParse (.invalidDict value key))

/-- Models `Env.dict`. -/
def Env.dict (env : Env) (key : String) : Except PyErr (List (String × String)) := do
  let value ← env.get key
  let value := env.applyOverride key value
  dictConv key value

/-! ## Base64 and image getters -/

/-- Value of a standard-alphabet base64 character. -/
def b64Val? (c : Char) : Option Nat :=
  if 'A' ≤ c ∧ c ≤ 'Z' then some (c.toNat - 65)
  else if 'a' ≤ c ∧ c ≤ 'z' then some (c.toNat - 97 + 26)
  else if '0' ≤ c ∧ c ≤ '9' then some (c.toNat - 48 + 52)
  else if c = '+' then some 62
  else if c = '/' then some 63
  else none

/-- State of the non-strict base64 decoder of binascii. -/
structure B64State where
  quadPos : Nat
  leftchar : Nat
  pads : Nat
  out : List Nat
  finished : Bool

/-- One character of the non-strict base64 scan: padding that completes a
group of at least two data characters ends the data; other padding in that
position is counted; stray padding and characters outside the alphabet are
discarded; a data character emits the completed bits of its quad. -/
def b64Step (st : B64State) (c : Char) : B64State :=
  if st.finished then st
  else if c = '=' then
    if 2 ≤ st.quadPos ∧ 4 ≤ st.quadPos + (st.pads + 1) then
      { st with finished := true }
    else if 2 ≤ st.quadPos then { st with pads := st.pads + 1 }
    else st
  else
    match b64Val? c with
    | none => st
    | some v =>
      match st.quadPos with
      | 0 => { st with quadPos := 1, leftchar := v, pads := 0 }
      | 1 =>
        { quadPos := 2, leftchar := v % 16, pads := 0,
          out := st.out ++ [st.leftchar * 4 + v / 16], finished := false }
      | 2 =>
        { quadPos := 3, leftchar := v % 4, pads := 0,
          out := st.out ++ [st.leftchar * 16 + v / 4], finished := false }
      | _ =>
        { quadPos := 0, leftchar := 0, pads := 0,
          out := st.out ++ [st.leftchar * 64 + v], finished := false }

/-- Models `base64.b64decode` on text with default validation: non-ASCII text
raises, characters outside the alphabet are discarded, sufficient padding
ends the data early, and a leftover partial quad at the end is an error. -/
def pyB64Decode? (s : String) : Option (List Nat) :=
  if s.data.any (fun c => 128 ≤ c.toNat) then none
  else
    let st := s.data.foldl b64Step ⟨0, 0, 0, [], false⟩
    if st.finished ∨ st.quadPos = 0 then some st.out else none

/-- Conversion step of `Env.base64_decode`. -/
def b64Conv (key value : String) : Except PyErr (List Nat) :=
  match pyB64Decode? value with
  | some bs => .ok bs
  | none => .error (.envParse (.invalidBase64 value key))

/-- Models `Env.base64_decode`; bytes are lists of values below 256. -/
def Env.base64_decode (env : Env) (key : String) : Except PyErr (List Nat) := do
  let value ← env.get key
  let value := env.applyOverride key value
  b64Conv key value

/-- Image object: the sniffed format name (opening is lazy in the source, so
only the header matters). -/
structure PILImage where
  format : String
deriving DecidableEq

/-- Models the header sniffing `Image.open` performs before lazily loading:
the magic numbers of the common raster formats. -/
def sniffImage? (bs : List Nat) : Option String :=
  if startsWithL [137, 80, 78, 71, 13, 10, 26, 10] bs then some "PNG"
  else if startsWithL [255, 216, 255] bs then some "JPEG"
  else if startsWithL [71, 73, 70, 56, 55, 97] bs ∨
      startsWithL [71, 73, 70, 56, 57, 97] bs then some "GIF"
  else if startsWithL [66, 77] bs then some "BMP"
  else none

/-- Conversion step of `Env.base64_image` after the base64 decode. -/
def imgConv (key : String) (bs : List Nat) : Except PyErr PILImage :=
  match sniffImage? bs with
  | some f => .ok ⟨f⟩
  | none => .error (.envParse (.invalidImage key))

/-- Models `Env.base64_image`: delegate to the base64 getter, then open. -/
def Env.base64_image (env : Env) (key : String) : Except PyErr PILImage := do
  let decoded ← env.base64_decode key
  imgConv key decoded

/-! ## Uniform view of one getter call -/

/-- One typed getter call with its arguments. -/
inductive GetterOp where
  | gstr (key : String)
  | gint (key : String)
  | gfloat (key : String)
  | gbool (key : String)
  | gdate (key fmt : String)
  | gtimedelta (key : String)
  | guuid (key : String)
  | gjson (key : String)
  | gpath (key : String)
  | gurl (key : String)
  | genum (key : String) (table : List (String × Nat))
  | glist (key delim : String)
  | gdict (key : String)
  | gbase64 (key : String)
  | gimage (key : String)
  | gport (key : String)

/-- Result of any typed getter, injected into one type. -/
inductive Value where
  | vStr (s : String)
  | vInt (n : Int)
  | vFloat (x : Float)
  | vBool (b : Bool)
  | vDate (d : PyDate)
  | vTimedelta (t : Int)
  | vUUID (n : Nat)
  | vJson (j : JsonVal)
  | vPath (p : PyPath)
  | vUrl (u : UrlParts)
  | vEnum (n : Nat)
  | vList (l : List String)
  | vDict (d : List (String × String))
  | vBytes (b : List Nat)
  | vImage (i : PILImage)

/-- State-passing semantics of one typed getter call.  The source methods
contain no assignment to either map, so the translation of each call returns
its result alongside the state it was called with. -/
def runGetter : GetterOp → Env → (Except PyErr Value × Env)
  | .gstr k, env => ((env.str k).map .vStr, env)
  | .gint k, env => ((env.int k).map .vInt, env)
  | .gfloat k, env => ((env.float k).map .vFloat, env)
  | .gbool k, env => ((env.bool k).map .vBool, env)
  | .gdate k fmt, env => ((env.date k fmt).map .vDate, env)
  | .gtimedelta k, env => ((env.timedelta k).map .vTimedelta, env)
  | .guuid k, env => ((env.uuid k).map .vUUID, env)
  | .gjson k, env => ((env.json k).map .vJson, env)
  | .gpath k, env => ((env.path k).map .vPath, env)
  | .gurl k, env => ((env.url k).map .vUrl, env)
  | .genum k table, env => ((env.enum k table).map .vEnum, env)
  | .glist k d, env => ((env.list k d).map .vList, env)
  | .gdict k, env => ((env.dict k).map .vDict, env)
  | .gbase64 k, env => ((env.base64_decode k).map .vBytes, env)
  | .gimage k, env => ((env.base64_image k).map .vImage, env)
  | .gport k, env => ((env.port k).map .vInt, env)

/-! ## Supporting lemmas -/

/-- Updating a key makes it present with the new value. -/
theorem getk_setk_self {α : Type} (m : List (String × α)) (k : String) (v : α) :
    getk (setk m k v) k = some v := by
  induction m with
  | nil => simp [getk, setk]
  | cons hd tl ih =>
    obtain ⟨k0, v0⟩ := hd
    by_cases h : k0 = k
    · simp [getk, setk, h]
    · simp [getk, setk, h, ih]

/-- A list without the equals sign has no first split. -/
theorem splitFirstEq_none (l : List Char) (h : ∀ c ∈ l, c ≠ '=') :
    splitFirstEq l = none := by
  induction l with
  | nil => rfl
  | cons c cs ih =>
    have hc : c ≠ '=' := h c (List.mem_cons_self c cs)
    have ihs : splitFirstEq cs = none := ih (fun x hx => h x (List.mem_cons_of_mem c hx))
    simp [splitFirstEq, hc, ihs]

/-- The first split of a list around an explicit equals sign whose prefix has
no equals sign. -/
theorem splitFirstEq_append (k v : List Char) (hk : ∀ c ∈ k, c ≠ '=') :
    splitFirstEq (k ++ '=' :: v) = some (k, v) := by
  induction k with
  | nil => simp [splitFirstEq]
  | cons c cs ih =>
    have hc : c ≠ '=' := hk c (List.mem_cons_self c cs)
    have ihs := ih (fun x hx => hk x (List.mem_cons_of_mem c hx))
    simp [splitFirstEq, hc, ihs]

/-- Resolution when the key is present: `_get` returns the stored value. -/
theorem Env.get_of_lookup (env : Env) (k v : String)
    (hv : getk env.env_values k = some v) : env.get k = .ok v := by
  simp [Env.get, hv]

/-- Resolution when the key is absent: `_get` raises the missing-key error. -/
theorem Env.get_of_missing (env : Env) (k : String)
    (hk : getk env.env_values k = none) :
    env.get k = .error (.envParse (.missingKey k)) := by
  simp [Env.get, hk]

/-- With an override registered, `_apply_custom_parser` is that override. -/
theorem Env.applyOverride_of_registered (env : Env) (k : String)
    (f : String → String) (hf : getk env.custom_parsers k = some f)
    (w : String) : env.applyOverride k w = f w := by
  simp [Env.applyOverride, hf]

/-- Without an override, `_apply_custom_parser` is the identity. -/
theorem Env.applyOverride_of_none (env : Env) (k : String)
    (hf : getk env.custom_parsers k = none) (w : String) :
    env.applyOverride k w = w := by
  simp [Env.applyOverride, hf]

/-- Bind through a computation known to be a success. -/
theorem bindOkCongr {α : Type} (m : Except PyErr String) (v : String)
    (hm : m = .ok v) (g : String → Except PyErr α) : Bind.bind m g = g v := by
  rw [hm]; rfl

/-- Bind through a computation known to be a failure. -/
theorem bindErrCongr {α : Type} (m : Except PyErr String) (e : PyErr)
    (hm : m = .error e) (g : String → Except PyErr α) :
    Bind.bind m g = .error e := by
  rw [hm]; rfl

/-- Resolution of every typed getter at a present key: each call is the
getter's conversion step applied to the override-resolved value (for the
boolean getter, the override is applied to the lowercased raw value). -/
theorem getter_resolved (env : Env) (k v : String) (table : List (String × Nat))
    (d fmt : String) (hv : getk env.env_values k = some v) :
    env.str k = .ok (env.applyOverride k v) ∧
    env.int k = intConv k (env.applyOverride k v) ∧
    env.float k = floatConv k (env.applyOverride k v) ∧
    env.bool k = boolConv k (env.applyOverride k (pyLower v)) ∧
    env.date k fmt = dateConv k fmt (env.applyOverride k v) ∧
    env.timedelta k = tdConv k (env.applyOverride k v) ∧
    env.uuid k = uuidConv k (env.applyOverride k v) ∧
    env.json k = jsonConv k (env.applyOverride k v) ∧
    env.path k = .ok ⟨env.applyOverride k v⟩ ∧
    env.url k = urlConv k (env.applyOverride k v) ∧
    env.enum k table = enumConv k table (env.applyOverride k v) ∧
    env.list k d = listConv d (env.applyOverride k v) ∧
    env.dict k = dictConv k (env.applyOverride k v) ∧
    env.base64_decode k = b64Conv k (env.applyOverride k v) ∧
    env.base64_image k =
      Except.bind (b64Conv k (env.applyOverride k v)) (imgConv k) ∧
    env.port k =
      Except.bind (intConv k (env.applyOverride k v)) (fun p =>
        if 1 ≤ p ∧ p ≤ 65535 then .ok p
        else .error (.envParse (.invalidPort (env.applyOverride k v) k))) := by
  have hok : env.get k = .ok v := Env.get_of_lookup env k v hv
  have hint : env.int k = intConv k (env.applyOverride k v) :=
    bindOkCongr (env.get k) v hok _
  have hb64 : env.base64_decode k = b64Conv k (env.applyOverride k v) :=
    bindOkCongr (env.get k) v hok _
  refine ⟨bindOkCongr (env.get k) v hok _, hint,
    bindOkCongr (env.get k) v hok _, bindOkCongr (env.get k) v hok _,
    bindOkCongr (env.get k) v hok _, bindOkCongr (env.get k) v hok _,
    bindOkCongr (env.get k) v hok _, bindOkCongr (env.get k) v hok _,
    bindOkCongr (env.get k) v hok _, bindOkCongr (env.get k) v hok _,
    bindOkCongr (env.get k) v hok _, bindOkCongr (env.get k) v hok _,
    bindOkCongr (env.get k) v hok _, hb64, ?_, ?_⟩
  · unfold Env.base64_image
    rw [hb64]
    rfl
  · unfold Env.port
    rw [hok, hint]
    rfl

/-- Every typed getter at an absent key raises exactly the missing-key
error. -/
theorem getter_missing (env : Env) (k : String) (table : List (String × Nat))
    (d fmt : String) (hk : getk env.env_values k = none) :
    env.str k = .error (.envParse (.missingKey k)) ∧
    env.int k = .error (.envParse (.missingKey k)) ∧
    env.float k = .error (.envParse (.missingKey k)) ∧
    env.bool k = .error (.envParse (.missingKey k)) ∧
    env.date k fmt = .error (.envParse (.missingKey k)) ∧
    env.timedelta k = .error (.envParse (.missingKey k)) ∧
    env.uuid k = .error (.envParse (.missingKey k)) ∧
    env.json k = .error (.envParse (.missingKey k)) ∧
    env.path k = .error (.envParse (.missingKey k)) ∧
    env.url k = .error (.envParse (.missingKey k)) ∧
    env.enum k table = .error (.envParse (.missingKey k)) ∧
    env.list k d = .error (.envParse (.missingKey k)) ∧
    env.dict k = .error (.envParse (.missingKey k)) ∧
    env.base64_decode k = .error (.envParse (.missingKey k)) ∧
    env.base64_image k = .error (.envParse (.missingKey k)) ∧
    env.port k = .error (.envParse (.missingKey k)) := by
  have hget : env.get k = .error (.envParse (.missingKey k)) :=
    Env.get_of_missing env k hk
  have hb64 : env.base64_decode k = .error (.envParse (.missingKey k)) :=
    bindErrCongr (env.get k) _ hget _
  refine ⟨bindErrCongr (env.get k) _ hget _, bindErrCongr (env.get k) _ hget _,
    bindErrCongr (env.get k) _ hget _, bindErrCongr (env.get k) _ hget _,
    bindErrCongr (env.get k) _ hget _, bindErrCongr (env.get k) _ hget _,
    bindErrCongr (env.get k) _ hget _, bindErrCongr (env.get k) _ hget _,
    bindErrCongr (env.get k) _ hget _, bindErrCongr (env.get k) _ hget _,
    bindErrCongr (env.get k) _ hget _, bindErrCongr (env.get k) _ hget _,
    bindErrCongr (env.get k) _ hget _, hb64, ?_,
    bindErrCongr (env.get k) _ hget _⟩
  unfold Env.base64_image
  rw [hb64]
  rfl

/-! ## Claim C3 -/

/-- C3: for every typed getter and every key absent from the RawStore, the
call fails with the missing-key error, and never returns a null or default
value. -/
theorem missing_key_always_errors (env : Env) (k : String)
    (table : List (String × Nat)) (d fmt : String)
    (hk : getk env.env_values k = none) :
    env.str k = .error (.envParse (.missingKey k)) ∧
    env.int k = .error (.envParse (.missingKey k)) ∧
    env.float k = .error (.envParse (.missingKey k)) ∧
    env.bool k = .error (.envParse (.missingKey k)) ∧
    env.date k fmt = .error (.envParse (.missingKey k)) ∧
    env.timedelta k = .error (.envParse (.missingKey k)) ∧
    env.uuid k = .error (.envParse (.missingKey k)) ∧
    env.json k = .error (.envParse (.missingKey k)) ∧
    env.path k = .error (.envParse (.missingKey k)) ∧
    env.url k = .error (.envParse (.missingKey k)) ∧
    env.enum k table = .error (.envParse (.missingKey k)) ∧
    env.list k d = .error (.envParse (.missingKey k)) ∧
    env.dict k = .error (.envParse (.missingKey k)) ∧
    env.base64_decode k = .error (.envParse (.missingKey k)) ∧
    env.base64_image k = .error (.envParse (.missingKey k)) ∧
    env.port k = .error (.envParse (.missingKey k)) :=
  getter_missing env k table d fmt hk

/-- Witness for C3 at the empty store. -/
theorem missing_key_always_errors_witness :
    Env.str ⟨[], []⟩ "MISSING_KEY" =
      .error (.envParse (.missingKey "MISSING_KEY")) ∧
    Env.port ⟨[], []⟩ "MISSING_KEY" =
      .error (.envParse (.missingKey "MISSING_KEY")) := by
  have H := missing_key_always_errors ⟨[], []⟩ "MISSING_KEY" [] "," "%d-%m-%Y" rfl
  exact ⟨H.1, H.2.2.2.2.2.2.2.2.2.2.2.2.2.2.2⟩

/-! ## Claim C1 -/

/-- C1 counterexample: with raw value FALSE and an override that
distinguishes the stored text from its lowercasing, the override on the raw
stored string yields the text true, whose conversion is ok true, yet the
boolean getter returns ok false, because the source hands the override the
lowercased text instead of the raw stored string. -/
theorem bool_override_gets_lowercased_text :
    Env.applyOverride
      ⟨[("K", "FALSE")], [("K", fun s => if s = "FALSE" then "true" else "false")]⟩
      "K" "FALSE" = "true" ∧
    boolConv "K" "true" = .ok true ∧
    Env.bool
      ⟨[("K", "FALSE")], [("K", fun s => if s = "FALSE" then "true" else "false")]⟩
      "K" = .ok false ∧
    (Except.ok false : Except PyErr Bool) ≠ .ok true :=
  ⟨rfl, rfl, rfl, by decide⟩

/-- C1 (amended): with an override registered for a present key, every typed
getter except the boolean one invokes the override on the raw stored string
and feeds its return value to the conversion step that follows; the boolean
getter invokes the override on the lowercased raw string instead. -/
theorem override_output_feeds_conversion (env : Env) (k v : String)
    (f : String → String) (table : List (String × Nat)) (d fmt : String)
    (hv : getk env.env_values k = some v)
    (hf : getk env.custom_parsers k = some f) :
    env.str k = .ok (f v) ∧
    env.int k = intConv k (f v) ∧
    env.float k = floatConv k (f v) ∧
    env.bool k = boolConv k (f (pyLower v)) ∧
    env.date k fmt = dateConv k fmt (f v) ∧
    env.timedelta k = tdConv k (f v) ∧
    env.uuid k = uuidConv k (f v) ∧
    env.json k = jsonConv k (f v) ∧
    env.path k = .ok ⟨f v⟩ ∧
    env.url k = urlConv k (f v) ∧
    env.enum k table = enumConv k table (f v) ∧
    env.list k d = listConv d (f v) ∧
    env.dict k = dictConv k (f v) ∧
    env.base64_decode k = b64Conv k (f v) ∧
    env.base64_image k = Except.bind (b64Conv k (f v)) (imgConv k) ∧
    env.port k = Except.bind (intConv k (f v)) (fun p =>
        if 1 ≤ p ∧ p ≤ 65535 then .ok p
        else .error (.envParse (.invalidPort (f v) k))) := by
  have ha : ∀ w, env.applyOverride k w = f w :=
    Env.applyOverride_of_registered env k f hf
  have H := getter_resolved env k v table d fmt hv
  simpa [ha] using H

/-- Witness for C1 with a concrete override appending a digit. -/
theorem override_output_feeds_conversion_witness :
    Env.str ⟨[("K", "1")], [("K", fun s => s ++ "0")]⟩ "K" = .ok "10" ∧
    Env.int ⟨[("K", "1")], [("K", fun s => s ++ "0")]⟩ "K" = .ok 10 := by
  have H := override_output_feeds_conversion
    ⟨[("K", "1")], [("K", fun s => s ++ "0")]⟩ "K" "1" (fun s => s ++ "0")
    [] "," "%d-%m-%Y" rfl rfl
  refine ⟨?_, ?_⟩
  · rw [H.1]
    decide
  · rw [H.2.1]
    decide

/-! ## Claim C2 -/

/-- C2: every typed getter reads the RawStore and the OverrideRegistry as
they are at call time: after a raw entry is inserted and an override
registered post-construction, every subsequent getter call for that key uses
the current entry and the current override. -/
theorem getters_observe_current_state (env : Env) (k v : String)
    (f : String → String) (table : List (String × Nat)) (d fmt : String) :
    ((env.insertRaw k v).registerOverride k f).str k = .ok (f v) ∧
    ((env.insertRaw k v).registerOverride k f).int k = intConv k (f v) ∧
    ((env.insertRaw k v).registerOverride k f).float k = floatConv k (f v) ∧
    ((env.insertRaw k v).registerOverride k f).bool k =
      boolConv k (f (pyLower v)) ∧
    ((env.insertRaw k v).registerOverride k f).date k fmt =
      dateConv k fmt (f v) ∧
    ((env.insertRaw k v).registerOverride k f).timedelta k = tdConv k (f v) ∧
    ((env.insertRaw k v).registerOverride k f).uuid k = uuidConv k (f v) ∧
    ((env.insertRaw k v).registerOverride k f).json k = jsonConv k (f v) ∧
    ((env.insertRaw k v).registerOverride k f).path k = .ok ⟨f v⟩ ∧
    ((env.insertRaw k v).registerOverride k f).url k = urlConv k (f v) ∧
    ((env.insertRaw k v).registerOverride k f).enum k table =
      enumConv k table (f v) ∧
    ((env.insertRaw k v).registerOverride k f).list k d = listConv d (f v) ∧
    ((env.insertRaw k v).registerOverride k f).dict k = dictConv k (f v) ∧
    ((env.insertRaw k v).registerOverride k f).base64_decode k =
      b64Conv k (f v) ∧
    ((env.insertRaw k v).registerOverride k f).base64_image k =
      Except.bind (b64Conv k (f v)) (imgConv k) ∧
    ((env.insertRaw k v).registerOverride k f).port k =
      Except.bind (intConv k (f v)) (fun p =>
        if 1 ≤ p ∧ p ≤ 65535 then .ok p
        else .error (.envParse (.invalidPort (f v) k))) := by
  have hv2 : getk ((env.insertRaw k v).registerOverride k f).env_values k =
      some v := getk_setk_self env.env_values k v
  have hf2 : getk ((env.insertRaw k v).registerOverride k f).custom_parsers k =
      some f := getk_setk_self env.custom_parsers k f
  have ha : ∀ w, ((env.insertRaw k v).registerOverride k f).applyOverride k w =
      f w := Env.applyOverride_of_registered _ k f hf2
  have H := getter_resolved ((env.insertRaw k v).registerOverride k f)
    k v table d fmt hv2
  simpa [ha] using H

/-! ## Claim C10 -/

/-- C10: every typed getter call leaves both maps unchanged whether it
returns a value or fails; registration mutates only the override registry
and direct raw insertion only the raw store. -/
theorem getters_leave_maps_unchanged (op : GetterOp) (env : Env)
    (k v : String) (f : String → String) :
    (runGetter op env).2 = env ∧
    (env.registerOverride k f).env_values = env.env_values ∧
    (env.insertRaw k v).custom_parsers = env.custom_parsers := by
  refine ⟨?_, rfl, rfl⟩
  cases op <;> rfl

/-! ## Claim C4 -/

/-- C4: the port getter integer-converts the resolved value and range-checks
it: when the resolved value parses as the integer n the call returns n
exactly when n lies in 1..65535 and raises the port conversion error
otherwise; a non-numeric resolved value raises the integer conversion
error. -/
theorem port_converts_and_range_checks (env : Env) (k v : String) (n : Int)
    (hv : getk env.env_values k = some v) :
    (pyInt? (env.applyOverride k v) = some n →
      ((env.port k = .ok n ↔ 1 ≤ n ∧ n ≤ 65535) ∧
       (¬ (1 ≤ n ∧ n ≤ 65535) →
         env.port k =
           .error (.envParse (.invalidPort (env.applyOverride k v) k))))) ∧
    (pyInt? (env.applyOverride k v) = none →
      env.port k =
        .error (.envParse (.invalidInt (env.applyOverride k v) k))) := by
  have Hp := (getter_resolved env k v [] "," "%d-%m-%Y" hv).2.2.2.2.2.2.2.2.2.2.2.2.2.2.2
  constructor
  · intro hn
    have hic : intConv k (env.applyOverride k v) = .ok n := by
      simp [intConv, hn]
    rw [Hp, hic]
    by_cases hr : 1 ≤ n ∧ n ≤ 65535
    · constructor
      · constructor
        · intro _
          exact hr
        · intro _
          show (if 1 ≤ n ∧ n ≤ 65535 then (Except.ok n : Except PyErr Int)
            else .error (.envParse (.invalidPort (env.applyOverride k v) k))) = .ok n
          rw [if_pos hr]
      · intro hc
        exact absurd hr hc
    · constructor
      · constructor
        · intro h
          have : (if 1 ≤ n ∧ n ≤ 65535 then (Except.ok n : Except PyErr Int)
              else .error (.envParse (.invalidPort (env.applyOverride k v) k))) =
              .error (.envParse (.invalidPort (env.applyOverride k v) k)) := by
            rw [if_neg hr]
          rw [show Except.bind (Except.ok n) (fun p =>
              if 1 ≤ p ∧ p ≤ 65535 then (Except.ok p : Except PyErr Int)
              else .error (.envParse (.invalidPort (env.applyOverride k v) k))) =
              (if 1 ≤ n ∧ n ≤ 65535 then (Except.ok n : Except PyErr Int)
              else .error (.envParse (.invalidPort (env.applyOverride k v) k)))
            from rfl, this] at h
          cases h
        · intro hc
          exact absurd hc hr
      · intro _
        show (if 1 ≤ n ∧ n ≤ 65535 then (Except.ok n : Except PyErr Int)
          else .error (.envParse (.invalidPort (env.applyOverride k v) k))) =
          .error (.envParse (.invalidPort (env.applyOverride k v) k))
        rw [if_neg hr]
  · intro hn
    have hic : intConv k (env.applyOverride k v) =
        .error (.envParse (.invalidInt (env.applyOverride k v) k)) := by
      simp [intConv, hn]
    rw [Hp, hic]
    rfl

/-- Witness for C4 at raw values 8080, 99999 and 0. -/
theorem port_converts_and_range_checks_witness :
    Env.port ⟨[("PORT", "8080")], []⟩ "PORT" = .ok 8080 ∧
    Env.port ⟨[("PORT", "99999")], []⟩ "PORT" =
      .error (.envParse (.invalidPort "99999" "PORT")) ∧
    Env.port ⟨[("PORT", "0")], []⟩ "PORT" =
      .error (.envParse (.invalidPort "0" "PORT")) := by
  refine ⟨?_, ?_, ?_⟩
  · exact ((port_converts_and_range_checks ⟨[("PORT", "8080")], []⟩
      "PORT" "8080" 8080 rfl).1 (by decide)).1.mpr (by decide)
  · have h := ((port_converts_and_range_checks ⟨[("PORT", "99999")], []⟩
      "PORT" "99999" 99999 rfl).1 (by decide)).2 (by decide)
    simpa using h
  · have h := ((port_converts_and_range_checks ⟨[("PORT", "0")], []⟩
      "PORT" "0" 0 rfl).1 (by decide)).2 (by decide)
    simpa using h

/-! ## Claim C5 -/

/-- C5 counterexample: a nonblank, noncomment line without an equals sign
makes loading fail with the uncaught unpacking ValueError, which is not the
umbrella error kind. -/
theorem no_equals_line_error_unclassified :
    loadLines [] ["FOO"] =
      .error (.valueError "not enough values to unpack (expected 2, got 1)") ∧
    PyErr.isEnvParse
      (.valueError "not enough values to unpack (expected 2, got 1)") = false := by
  decide

/-- C5 (amended): every nonblank, noncomment source line without an equals
sign causes loading to fail — no such line is silently skipped — but the
failure is the uncaught unpacking ValueError, not the structured parse-error
sub-reason of the umbrella error kind. -/
theorem no_equals_line_fails_loading (acc : List (String × String))
    (line : String) (rest : List String)
    (h1 : pyStrip line ≠ "") (h2 : pyStartsWith line "#" = false)
    (h3 : ∀ c ∈ (pyStrip line).data, c ≠ '=') :
    loadLines acc (line :: rest) =
      .error (.valueError "not enough values to unpack (expected 2, got 1)") ∧
    PyErr.isEnvParse
      (.valueError "not enough values to unpack (expected 2, got 1)") = false := by
  refine ⟨?_, rfl⟩
  have hs : splitFirstEq (pyStrip line).data = none := splitFirstEq_none _ h3
  simp [loadLines, h1, h2, hs]

/-- Witness for C5 at a different concrete malformed line. -/
theorem no_equals_line_fails_loading_witness :
    loadLines [] ["BAR", "X=1"] =
      .error (.valueError "not enough values to unpack (expected 2, got 1)") ∧
    PyErr.isEnvParse
      (.valueError "not enough values to unpack (expected 2, got 1)") = false :=
  no_equals_line_fails_loading [] "BAR" ["X=1"] (by decide) (by decide)
    (by decide)

/-! ## Claim C6 -/

/-- C6 counterexample: the particular line consisting of two spaces, the
hash character and the letter c starts with the hash character after
trimming, yet it is not ignored: it makes construction fail, because the
source tests the untrimmed line for the hash prefix and then splits its
trim, which has no equals sign. -/
theorem indented_comment_line_fails :
    loadLines [] ["  #c"] =
      .error (.valueError "not enough values to unpack (expected 2, got 1)") := by
  decide

/-- C6 (amended): a source line that is empty after trimming, or that starts
with the hash character before trimming, is ignored: it adds no entry to the
RawStore and loading continues as if the line were absent.  A line starting
with the hash character only after trimming is instead processed like any
other line: with an equals sign it is stored as an entry whose key begins
with the hash character (concrete conjunct), without one it aborts loading. -/
theorem blank_or_hash_line_skipped (acc : List (String × String))
    (line : String) (rest : List String)
    (h : pyStrip line = "" ∨ pyStartsWith line "#" = true) :
    loadLines acc (line :: rest) = loadLines acc rest ∧
    loadLines [] ["  #A=1"] = .ok [("#A", "1")] := by
  refine ⟨?_, by decide⟩
  rcases h with h | h
  · simp [loadLines, h]
  · simp [loadLines, h]

/-- Witness for C6: a comment line and a blank line add nothing. -/
theorem blank_or_hash_line_skipped_witness :
    loadLines [] ["#comment", "A=1"] = .ok [("A", "1")] ∧
    loadLines [] ["   ", "A=1"] = .ok [("A", "1")] := by
  constructor
  · rw [(blank_or_hash_line_skipped [] "#comment" ["A=1"] (Or.inr (by decide))).1]
    decide
  · rw [(blank_or_hash_line_skipped [] "   " ["A=1"] (Or.inl (by decide))).1]
    decide

/-! ## Claim C7 -/

/-- C7 counterexample: the loader splits the trimmed line, so the trailing
space of the value in the line is not stored: the stored text differs from
the text after the first equals sign of the raw line. -/
theorem trailing_space_not_stored_verbatim :
    loadLines [] ["K=v "] = .ok [("K", "v")] ∧ ("v" : String) ≠ "v " := by
  decide

/-- C7 (amended): for a well-formed line, construction stores under the key
exactly the text after the first equals sign of the whitespace-trimmed line,
including any further equals characters and interior or leading whitespace
of the value (trailing whitespace of the line is trimmed away); the string
getter absent an override returns exactly the stored raw text. -/
theorem stored_value_is_text_after_first_equals
    (acc : List (String × String)) (k v : String) (rest : List String)
    (env : Env) (k2 v2 : String)
    (hk : ∀ c ∈ k.data, c ≠ '=')
    (ht : pyStrip (k ++ "=" ++ v) = k ++ "=" ++ v)
    (hh : pyStartsWith (k ++ "=" ++ v) "#" = false)
    (hv2 : getk env.env_values k2 = some v2)
    (hp2 : getk env.custom_parsers k2 = none) :
    loadLines acc ((k ++ "=" ++ v) :: rest) = loadLines (setk acc k v) rest ∧
    env.str k2 = .ok v2 := by
  constructor
  · have hdata : (k ++ "=" ++ v).data = k.data ++ '=' :: v.data := by
      simp [String.data_append]
    have hne : pyStrip (k ++ "=" ++ v) ≠ "" := by
      rw [ht]
      intro h
      have := congrArg String.data h
      rw [hdata] at this
      simp at this
    have hsplit : splitFirstEq (pyStrip (k ++ "=" ++ v)).data =
        some (k.data, v.data) := by
      rw [ht, hdata]
      exact splitFirstEq_append k.data v.data hk
    simp [loadLines, hne, hh, hsplit]
  · have hok := Env.get_of_lookup env k2 v2 hv2
    have h := bindOkCongr (env.get k2) v2 hok
      (fun value => (pure (env.applyOverride k2 value) : Except PyErr String))
    calc env.str k2 = pure (env.applyOverride k2 v2) := h
    _ = .ok v2 := by rw [Env.applyOverride_of_none env k2 hp2]; rfl

/-- Witness for C7: a value containing a further equals sign is stored
verbatim and returned by the string getter. -/
theorem stored_value_is_text_after_first_equals_witness :
    loadLines [] ["K=va=lue"] = .ok [("K", "va=lue")] ∧
    Env.str ⟨[("K", "va=lue")], []⟩ "K" = .ok "va=lue" := by
  have H := stored_value_is_text_after_first_equals [] "K" "va=lue" []
    ⟨[("K", "va=lue")], []⟩ "K" "va=lue" (by decide) (by decide) (by decide)
    rfl rfl
  constructor
  · have e : ("K" ++ "=" ++ "va=lue" : String) = "K=va=lue" := by decide
    have h1 := H.1
    rw [e] at h1
    rw [h1]
    decide
  · exact H.2

/-! ## Claim C8 -/

/-- C8 counterexample: resolved text containing an exclamation mark, a
character outside the standard base64 alphabet, does not make the getter
fail: the decoder discards what it does not recognize and the padding ends
the data, so the bytes of hello world are returned. -/
theorem base64_invalid_char_still_decodes :
    Env.base64_decode ⟨[("K", "aGVsbG8gd29ybGQ=!")], []⟩ "K" =
      .ok [104, 101, 108, 108, 111, 32, 119, 111, 114, 108, 100] := by
  decide

/-- C8 (amended): the getter applies the non-strict base64 decode to the
resolved text: standard base64 yields its bytes, so the hello world example
holds; characters outside the alphabet are discarded rather than rejected;
the conversion error is raised exactly when the decode itself fails, for
example on a leftover lone data character. -/
theorem base64_decode_behaviour (env : Env) (k v : String)
    (hv : getk env.env_values k = some v)
    (hp : getk env.custom_parsers k = none) :
    env.base64_decode k = b64Conv k v ∧
    b64Conv k "aGVsbG8gd29ybGQ=" =
      .ok [104, 101, 108, 108, 111, 32, 119, 111, 114, 108, 100] ∧
    b64Conv k "aGVsbG8gd29ybGQ=!" =
      .ok [104, 101, 108, 108, 111, 32, 119, 111, 114, 108, 100] ∧
    b64Conv k "Y" = .error (.envParse (.invalidBase64 "Y" k)) := by
  refine ⟨?_, rfl, rfl, rfl⟩
  have hb := (getter_resolved env k v [] "," "%d-%m-%Y" hv).2.2.2.2.2.2.2.2.2.2.2.2.2.1
  rw [hb, Env.applyOverride_of_none env k hp]

/-- Witness for C8: the hello world example through the getter. -/
theorem base64_decode_behaviour_witness :
    Env.base64_decode ⟨[("B64", "aGVsbG8gd29ybGQ=")], []⟩ "B64" =
      .ok [104, 101, 108, 108, 111, 32, 119, 111, 114, 108, 100] := by
  have H := base64_decode_behaviour ⟨[("B64", "aGVsbG8gd29ybGQ=")], []⟩
    "B64" "aGVsbG8gd29ybGQ=" rfl rfl
  rw [H.1]
  exact H.2.1

/-! ## Claim C9 -/

/-- C9 counterexample: with the empty delimiter the list getter does fail
after resolution, with the uncaught empty-separator ValueError. -/
theorem list_empty_delimiter_raises :
    Env.list ⟨[("K", "abc")], []⟩ "K" "" =
      .error (.valueError "empty separator") := by
  decide

/-- C9 (amended): for every present key and every nonempty caller-supplied
delimiter (the default is the comma) the list getter never fails after
resolution: it returns the split of the resolved value on the delimiter with
the whitespace of every item stripped; the empty delimiter instead raises an
uncaught ValueError. -/
theorem list_splits_and_strips (env : Env) (k v d : String)
    (hv : getk env.env_values k = some v) (hd : d ≠ "") :
    env.list k d = .ok ((pySplitSep (env.applyOverride k v) d).map pyStrip) := by
  have hl := (getter_resolved env k v [] d "%d-%m-%Y" hv).2.2.2.2.2.2.2.2.2.2.2.1
  rw [hl]
  simp [listConv, pySplit, hd]

/-- Witness for C9 at the sample list. -/
theorem list_splits_and_strips_witness :
    Env.list ⟨[("SAMPLE_LIST", "1,2,3")], []⟩ "SAMPLE_LIST" "," =
      .ok ["1", "2", "3"] := by
  rw [list_splits_and_strips ⟨[("SAMPLE_LIST", "1,2,3")], []⟩ "SAMPLE_LIST"
    "1,2,3" "," rfl (by decide)]
  decide
